import Mathlib

/-!
A shallow embedding of the Go package timer (github.com/tkennon/timer).

Durations (Go `time.Duration`, int64 nanoseconds) are modelled as unbounded
integers; the claims under study operate in the non-overflow regime.
Float64 values (the jitter fraction, the random magnitude) are modelled as
exact rationals.  The Go conversion of a float to `time.Duration` truncates
toward zero; it is modelled by `ratTrunc`.  The float32 arithmetic of the
exponential sequence is modelled by `roundF32`, IEEE-754 binary32
round-to-nearest-even on rationals: both the int64-to-float32 conversion
`float32(e.current)` and the float32 product round, which is observable
(e.g. float32 cannot represent 16777217 = 2^24 + 1).  `roundF32` keeps the
exponent unbounded, so it agrees with binary32 on the whole finite normal
range (durations are integers, hence never subnormal; overflow to infinity
followed by `time.Duration(c)` is implementation-defined in Go and outside
the claims).

The function `Timer.start` embeds `(*Timer).Start` from timer.go: the
validity check, the sequence advance, the jitter addition
`next += time.Duration(t.jitter*magnitude()) * next`, the min/max interval
clamps, and the cumulative-duration cap.  The asynchronous wait is not part
of any claim here; producing a channel and submitting `next` to the sleep
primitive `timeAfter` is modelled by the outcome `StartOutcome.ok next`,
and returning a nil channel with an error by `StartOutcome.err e`.
-/

namespace TimerPkg

/-- The Go float-to-integer conversion (`time.Duration(f)`): truncation
toward zero. -/
def ratTrunc (q : ℚ) : ℤ :=
  if 0 ≤ q then ⌊q⌋ else ⌈q⌉

/-- Round a rational to an integer, ties to even (the IEEE-754 default
rounding of the significand). -/
def rne (q : ℚ) : ℤ :=
  if q - ⌊q⌋ < 1/2 then ⌊q⌋
  else if 1/2 < q - ⌊q⌋ then ⌊q⌋ + 1
  else if ⌊q⌋ % 2 = 0 then ⌊q⌋ else ⌊q⌋ + 1

/-- IEEE-754 binary32 rounding (round to nearest, ties to even) of a
rational: the significand is rounded to 24 bits at the exponent of the
value.  The exponent is unbounded, so this agrees with Go float32 on the
entire finite normal range and neither overflows nor produces subnormals;
see the header comment for why that suffices here. -/
def roundF32 (q : ℚ) : ℚ :=
  if q = 0 then 0
  else
    (if q < 0 then -1 else 1) *
      (rne (|q| / (2 : ℚ) ^ (Int.log 2 |q| - 23)) : ℚ) * (2 : ℚ) ^ (Int.log 2 |q| - 23)

/-- The stubbed random magnitude from timer.go,
`magnitude = func() float64 { return 1.0 - 2.0*rand.Float64() }`,
as a function of the value `r` produced by `rand.Float64()`. -/
def magnitude (r : ℚ) : ℚ := 1 - 2 * r

/-- The three implementations of the `interval` interface: `constant`
(constant.go), `linear` (linear.go) and `exponential` (exponential.go, the
version with the sign-consistency guard). -/
inductive Seq where
  | constant (d : ℤ)
  | linear (initial current increment : ℤ)
  | exponential (initial current : ℤ) (multiplier : ℚ)
deriving DecidableEq, Repr

/-- Embeds `next()` of each sequence variant: returns the duration to wait
and the post-call sequence state.
* `constant`: returns the fixed duration, no state.
* `linear`: returns `current`, then `current += increment`.
* `exponential`: returns `current`, computes `c := float32(current) * multiplier`
  — the conversion of the int64 `current` to float32 and the float32 product
  each round to nearest (`roundF32`) — and updates `current = time.Duration(c)`
  only when the sign-consistency check
  `multiplier > 0 && c > 0 || multiplier < 0 && c < 0` passes. -/
def Seq.next : Seq → ℤ × Seq
  | .constant d => (d, .constant d)
  | .linear i c inc => (c, .linear i (c + inc) inc)
  | .exponential i cur m =>
      (cur, .exponential i
        (if (0 < m ∧ 0 < roundF32 (roundF32 (cur : ℚ) * m)) ∨
            (m < 0 ∧ roundF32 (roundF32 (cur : ℚ) * m) < 0)
          then ratTrunc (roundF32 (roundF32 (cur : ℚ) * m)) else cur) m)

/-- Embeds `reset()` of each sequence variant: restores `current = initial`
(a no-op for `constant`). -/
def Seq.reset : Seq → Seq
  | .constant d => .constant d
  | .linear i _ inc => .linear i i inc
  | .exponential i _ m => .exponential i i m

/-- Iterate `next()` a number of times, keeping only the state. -/
def Seq.advance : Seq → ℕ → Seq
  | s, 0 => s
  | s, n + 1 => Seq.advance s.next.2 n

/-- Whether the raw values produced by successive `next()` calls can never
decrease: true for `constant` and for `linear` with a nonnegative increment.
No exponential configuration qualifies: float32 rounding can shrink
`current` even with multiplier exactly 1.0 (e.g. from 16777217 to
16777216). -/
def Seq.nondec : Seq → Bool
  | .constant _ => true
  | .linear _ _ inc => decide (0 ≤ inc)
  | .exponential _ _ _ => false

/-- The `Timer` struct of timer.go, restricted to the fields the claims are
about.  The fields `ctx`, `stop` and `f` only affect the asynchronous wait. -/
structure Timer where
  interval : Seq
  total : ℤ
  jitter : ℚ
  minIntervalSet : Bool
  minInterval : ℤ
  maxIntervalSet : Bool
  maxInterval : ℤ
  maxDurationSet : Bool
  maxDuration : ℤ
deriving DecidableEq, Repr

/-- Embeds `newTimer`: all settings unset. -/
def newTimer (i : Seq) : Timer :=
  { interval := i, total := 0, jitter := 0,
    minIntervalSet := false, minInterval := 0,
    maxIntervalSet := false, maxInterval := 0,
    maxDurationSet := false, maxDuration := 0 }

/-- Embeds `NewConstant`. -/
def NewConstant (d : ℤ) : Timer := newTimer (.constant d)

/-- Embeds `NewLinear`. -/
def NewLinear (initial increment : ℤ) : Timer :=
  newTimer (.linear initial initial increment)

/-- Embeds `NewExponential`. -/
def NewExponential (initial : ℤ) (multiplier : ℚ) : Timer :=
  newTimer (.exponential initial initial multiplier)

/-- Embeds `(*Timer).WithJitter`. -/
def Timer.withJitter (t : Timer) (fraction : ℚ) : Timer :=
  { t with jitter := fraction }

/-- Embeds `(*Timer).WithMinInterval`. -/
def Timer.withMinInterval (t : Timer) (d : ℤ) : Timer :=
  { t with minInterval := d, minIntervalSet := true }

/-- Embeds `(*Timer).WithMaxInterval`. -/
def Timer.withMaxInterval (t : Timer) (d : ℤ) : Timer :=
  { t with maxInterval := d, maxIntervalSet := true }

/-- Embeds `(*Timer).WithMaxDuration`. -/
def Timer.withMaxDuration (t : Timer) (d : ℤ) : Timer :=
  { t with maxDuration := d, maxDurationSet := true }

/-- The two errors `Start` can return. -/
inductive Err where
  | maxDurationElapsed
  | invalidSettings
deriving DecidableEq, Repr

/-- The observable outcome of one `Start` call: `ok next` means a fresh
notification channel was returned and an asynchronous wait for `next` was
submitted to the sleep primitive; `err e` means a nil channel and the error
`e` were returned, with no wait spawned. -/
inductive StartOutcome where
  | ok (next : ℤ)
  | err (e : Err)
deriving DecidableEq, Repr

/-- The two interval clamps of `Start`:
`if t.minIntervalSet && next < t.minInterval { next = t.minInterval }` then
`if t.maxIntervalSet && next > t.maxInterval { next = t.maxInterval }`. -/
def Timer.clamp (t : Timer) (next : ℤ) : ℤ :=
  let n1 := if t.minIntervalSet = true ∧ next < t.minInterval then t.minInterval else next
  if t.maxIntervalSet = true ∧ t.maxInterval < n1 then t.maxInterval else n1

/-- Embeds `(*Timer).Start` of timer.go, as a function of the timer state and
of the magnitude `mag` the stubbed random source returns for this call.
Returns the post-call timer state and the outcome. -/
def Timer.start (t : Timer) (mag : ℚ) : Timer × StartOutcome :=
  if t.minIntervalSet = true ∧ t.maxIntervalSet = true ∧ t.maxInterval < t.minInterval then
    (t, .err .invalidSettings)
  else
    let raw := t.interval.next.1
    let seq1 := t.interval.next.2
    let jittered := raw + ratTrunc (t.jitter * mag) * raw
    let next := t.clamp jittered
    if t.maxDurationSet = true ∧ t.maxDuration < t.total + next then
      ({ t with interval := seq1 }, .err .maxDurationElapsed)
    else
      ({ t with interval := seq1, total := t.total + next }, .ok next)

/-- Embeds `(*Timer).Reset`: delegates to the sequence `reset()`. -/
def Timer.reset (t : Timer) : Timer :=
  { t with interval := t.interval.reset }

/-- Run a sequence of `Start` calls (keeping only the state), one per
magnitude in the list. -/
def Timer.run (t : Timer) (mags : List ℚ) : Timer :=
  mags.foldl (fun u m => (u.start m).1) t

/-- A timer state from which every `Start` call whose jitter factor truncates
to zero fails the cumulative-duration cap: nondecreasing sequence, valid
min/max settings, cap set, and the running total plus the next clamped
interval already over the cap. -/
def Stuck (t : Timer) : Prop :=
  t.interval.nondec = true ∧
  ¬(t.minIntervalSet = true ∧ t.maxIntervalSet = true ∧ t.maxInterval < t.minInterval) ∧
  t.maxDurationSet = true ∧
  t.maxDuration < t.total + t.clamp t.interval.next.1

theorem ratTrunc_eq_zero {q : ℚ} (h : |q| < 1) : ratTrunc q = 0 := by
  rcases abs_lt.mp h with ⟨h1, h2⟩
  unfold ratTrunc
  split
  · exact Int.floor_eq_zero_iff.mpr ⟨by assumption, h2⟩
  · exact Int.ceil_eq_zero_iff.mpr ⟨h1, le_of_not_le (by assumption)⟩

theorem ratTrunc_zero : ratTrunc 0 = 0 := by
  unfold ratTrunc
  norm_num

theorem ratTrunc_intCast (n : ℤ) : ratTrunc (n : ℚ) = n := by
  unfold ratTrunc
  split
  · exact Int.floor_intCast n
  · exact Int.ceil_intCast n

theorem rne_eq_of_lt_half (f : ℤ) {q : ℚ} (h1 : (f : ℚ) ≤ q) (h2 : q < f + 1/2) :
    rne q = f := by
  have hf : ⌊q⌋ = f := Int.floor_eq_iff.mpr ⟨h1, by linarith⟩
  unfold rne
  rw [hf, if_pos (by linarith)]

theorem rne_half_even (f : ℤ) {q : ℚ} (hq : q = (f : ℚ) + 1/2) (he : f % 2 = 0) :
    rne q = f := by
  have hf : ⌊q⌋ = f := Int.floor_eq_iff.mpr ⟨by rw [hq]; linarith, by rw [hq]; linarith⟩
  unfold rne
  rw [hf, hq, if_neg (by linarith), if_neg (by linarith), if_pos he]

theorem roundF32_eval {q : ℚ} {e : ℤ} (hq : 0 < q)
    (h1 : (2 : ℚ) ^ e ≤ q) (h2 : q < (2 : ℚ) ^ (e + 1)) :
    roundF32 q = (rne (q / (2 : ℚ) ^ (e - 23)) : ℚ) * (2 : ℚ) ^ (e - 23) := by
  have hb : (1 : ℕ) < 2 := by norm_num
  have hle : e ≤ Int.log 2 q := by
    refine (Int.zpow_le_iff_le_log hb hq).mp ?_
    exact_mod_cast h1
  have hlt : Int.log 2 q < e + 1 := by
    refine (Int.lt_zpow_iff_log_lt hb hq).mp ?_
    exact_mod_cast h2
  have he : Int.log 2 q = e := le_antisymm (by omega) hle
  unfold roundF32
  rw [if_neg (ne_of_gt hq), abs_of_pos hq, he, if_neg (not_lt.mpr (le_of_lt hq)), one_mul]

theorem clamp_le_max (t : Timer) (x : ℤ) (hmax : t.maxIntervalSet = true) :
    t.clamp x ≤ t.maxInterval := by
  simp only [Timer.clamp]
  by_cases hm : t.minIntervalSet = true <;> simp [hm, hmax] <;> omega

theorem min_le_clamp (t : Timer) (x : ℤ) (hmin : t.minIntervalSet = true)
    (hcfg : ¬(t.minIntervalSet = true ∧ t.maxIntervalSet = true ∧ t.maxInterval < t.minInterval)) :
    t.minInterval ≤ t.clamp x := by
  simp only [Timer.clamp]
  by_cases hM : t.maxIntervalSet = true
  · simp [hmin, hM] at hcfg ⊢
    omega
  · simp [hmin, hM]
    omega

theorem clamp_mono (t : Timer) {x y : ℤ} (h : x ≤ y) : t.clamp x ≤ t.clamp y := by
  simp only [Timer.clamp]
  by_cases hm : t.minIntervalSet = true <;> by_cases hM : t.maxIntervalSet = true <;>
    simp [hm, hM] <;> omega

theorem nondec_next (s : Seq) : s.next.2.nondec = s.nondec := by
  cases s <;> rfl

theorem reset_next (s : Seq) : s.next.2.reset = s.reset := by
  cases s <;> rfl

theorem reset_advance (s : Seq) (n : ℕ) : (Seq.advance s n).reset = s.reset := by
  induction n generalizing s with
  | zero => rfl
  | succ k ih => rw [Seq.advance, ih, reset_next]

theorem raw_mono (s : Seq) (h : s.nondec = true) : s.next.1 ≤ s.next.2.next.1 := by
  cases s with
  | constant d => exact le_refl d
  | linear i c inc =>
      have hinc : (0 : ℤ) ≤ inc := of_decide_eq_true h
      simp only [Seq.next]
      omega
  | exponential i cur m => simp [Seq.nondec] at h

theorem start_cap_fail (t : Timer) (m : ℚ)
    (hcfg : ¬(t.minIntervalSet = true ∧ t.maxIntervalSet = true ∧ t.maxInterval < t.minInterval))
    (hset : t.maxDurationSet = true)
    (hover : t.maxDuration < t.total +
      t.clamp (t.interval.next.1 + ratTrunc (t.jitter * m) * t.interval.next.1)) :
    t.start m = ({ t with interval := t.interval.next.2 }, .err .maxDurationElapsed) := by
  simp only [Timer.start]
  rw [if_neg hcfg, if_pos ⟨hset, hover⟩]

theorem start_fail_rev (t : Timer) (m : ℚ)
    (hfail : (t.start m).2 = .err .maxDurationElapsed) :
    ¬(t.minIntervalSet = true ∧ t.maxIntervalSet = true ∧ t.maxInterval < t.minInterval) ∧
    t.maxDurationSet = true ∧
    (t.maxDuration < t.total +
      t.clamp (t.interval.next.1 + ratTrunc (t.jitter * m) * t.interval.next.1)) ∧
    (t.start m).1 = { t with interval := t.interval.next.2 } := by
  by_cases hcfg : t.minIntervalSet = true ∧ t.maxIntervalSet = true ∧ t.maxInterval < t.minInterval
  · exfalso
    simp only [Timer.start] at hfail
    rw [if_pos hcfg] at hfail
    simp at hfail
  · by_cases hover : t.maxDurationSet = true ∧ t.maxDuration < t.total +
        t.clamp (t.interval.next.1 + ratTrunc (t.jitter * m) * t.interval.next.1)
    · refine ⟨hcfg, hover.1, hover.2, ?_⟩
      simp only [Timer.start]
      rw [if_neg hcfg, if_pos hover]
    · exfalso
      simp only [Timer.start] at hfail
      rw [if_neg hcfg, if_neg hover] at hfail
      simp at hfail

theorem stuck_advance (t : Timer)
    (hnd : t.interval.nondec = true)
    (hcfg : ¬(t.minIntervalSet = true ∧ t.maxIntervalSet = true ∧ t.maxInterval < t.minInterval))
    (hset : t.maxDurationSet = true)
    (hover : t.maxDuration < t.total + t.clamp t.interval.next.1) :
    Stuck { t with interval := t.interval.next.2 } := by
  refine ⟨?_, hcfg, hset, ?_⟩
  · rw [show ({ t with interval := t.interval.next.2 } : Timer).interval
        = t.interval.next.2 from rfl, nondec_next]
    exact hnd
  · exact lt_of_lt_of_le hover (add_le_add_left (clamp_mono t (raw_mono t.interval hnd)) t.total)

theorem stuck_start (t : Timer) (m : ℚ) (hs : Stuck t) (hj : |t.jitter * m| < 1) :
    (t.start m).2 = .err .maxDurationElapsed ∧ Stuck (t.start m).1 ∧
    (t.start m).1.jitter = t.jitter := by
  obtain ⟨hnd, hcfg, hset, hover⟩ := hs
  have hover2 : t.maxDuration < t.total +
      t.clamp (t.interval.next.1 + ratTrunc (t.jitter * m) * t.interval.next.1) := by
    rw [ratTrunc_eq_zero hj, zero_mul, add_zero]
    exact hover
  rw [start_cap_fail t m hcfg hset hover2]
  exact ⟨rfl, stuck_advance t hnd hcfg hset hover, rfl⟩

theorem stuck_run (mags : List ℚ) : ∀ t : Timer, Stuck t → (∀ m ∈ mags, |t.jitter * m| < 1) →
    Stuck (t.run mags) ∧ (t.run mags).jitter = t.jitter := by
  induction mags with
  | nil => exact fun t hs _ => ⟨hs, rfl⟩
  | cons m ms ih =>
      intro t hs hj
      have h1 := stuck_start t m hs (hj m (List.mem_cons_self m ms))
      have hrun : t.run (m :: ms) = ((t.start m).1).run ms := rfl
      rw [hrun]
      have hj2 : ∀ x ∈ ms, |((t.start m).1).jitter * x| < 1 := by
        intro x hx
        rw [h1.2.2]
        exact hj x (List.mem_cons_of_mem m hx)
      obtain ⟨hstuck, hjeq⟩ := ih ((t.start m).1) h1.2.1 hj2
      refine ⟨hstuck, ?_⟩
      rw [hjeq, h1.2.2]

/-- C1: the spec says the interval submitted to the sleep primitive is
`raw + fraction * magnitude() * raw`, so a base interval of 1s (10^9 ns) with
fraction 0.2 and magnitude -0.5 should give 0.9s (9·10^8 ns).  The code
instead truncates `fraction * magnitude()` to an integral duration before
multiplying, so the submitted interval is exactly 1s: this evaluates
`Start` at that failing input. -/
theorem C1_worked_example_fails :
    (((NewConstant 1000000000).withJitter (1/5)).start (-1/2)).2
      = StartOutcome.ok 1000000000 := by
  norm_num [Timer.start, Timer.clamp, NewConstant, newTimer, Timer.withJitter, Seq.next]
  exact ratTrunc_eq_zero (by rw [abs_lt]; norm_num)

/-- C2, counterexample: a linear timer with decreasing intervals (initial 3,
increment -2) and cumulative cap 2 fails its first `Start` (raw interval 3,
total 0+3 over the cap) but the second `Start` succeeds (raw interval 1,
total 0+1 within the cap) — the cap failure is not permanent. -/
theorem C2_counterexample :
    (((NewLinear 3 (-2)).withMaxDuration 2).start 0).2 = .err .maxDurationElapsed ∧
    ((((NewLinear 3 (-2)).withMaxDuration 2).start 0).1.start 0).2 = .ok 1 := by
  norm_num [Timer.start, Timer.clamp, NewLinear, newTimer, Timer.withMaxDuration, Seq.next,
    ratTrunc_zero]

/-- C2, amended: once a `Start` call fails with MaxDurationElapsed, every
subsequent `Start` call fails with MaxDurationElapsed too, provided the
interval sequence is nondecreasing — constant, or linear with nonnegative
increment; no exponential configuration qualifies, since float32 rounding
can shrink its intervals even with multiplier 1.0 — and every call has
|fraction * magnitude| < 1 (in particular whenever jitter is unset). -/
theorem C2_cap_failure_permanent (t : Timer) (m0 m1 : ℚ) (mags : List ℚ)
    (hnd : t.interval.nondec = true)
    (hj0 : |t.jitter * m0| < 1)
    (hjs : ∀ m ∈ mags, |t.jitter * m| < 1)
    (hj1 : |t.jitter * m1| < 1)
    (hfail : (t.start m0).2 = .err .maxDurationElapsed) :
    ((((t.start m0).1).run mags).start m1).2 = .err .maxDurationElapsed := by
  obtain ⟨hcfg, hset, hover, hpost⟩ := start_fail_rev t m0 hfail
  rw [ratTrunc_eq_zero hj0, zero_mul, add_zero] at hover
  have hstuck1 : Stuck (t.start m0).1 := by
    rw [hpost]
    exact stuck_advance t hnd hcfg hset hover
  have hjeq1 : (t.start m0).1.jitter = t.jitter := by
    rw [hpost]
  have hjs1 : ∀ m ∈ mags, |(t.start m0).1.jitter * m| < 1 := by
    intro x hx
    rw [hjeq1]
    exact hjs x hx
  obtain ⟨hstuck2, hjeq2⟩ := stuck_run mags (t.start m0).1 hstuck1 hjs1
  have hj1b : |((t.start m0).1.run mags).jitter * m1| < 1 := by
    rw [hjeq2, hjeq1]
    exact hj1
  exact (stuck_start _ m1 hstuck2 hj1b).1

/-- C2, witness: a constant timer with interval 3 and cap 2 fails its first
`Start`, still fails after one more failing call, and fails again on the
next call. -/
theorem C2_witness :
    (((((NewConstant 3).withMaxDuration 2).start 0).1.run [0]).start 0).2
      = .err .maxDurationElapsed := by
  refine C2_cap_failure_permanent _ 0 0 [0] rfl ?_ ?_ ?_ ?_
  · norm_num [NewConstant, newTimer, Timer.withMaxDuration]
  · intro m hm
    simp at hm
    subst hm
    norm_num [NewConstant, newTimer, Timer.withMaxDuration]
  · norm_num [NewConstant, newTimer, Timer.withMaxDuration]
  · norm_num [Timer.start, Timer.clamp, NewConstant, newTimer, Timer.withMaxDuration, Seq.next,
      ratTrunc_zero]

/-- C3: when the cumulative cap is set and the running total plus the
adjusted (jittered and clamped) interval exceeds the cap, `Start` returns
the MaxDurationElapsed error with no notification channel, and the `total`
field is left unchanged. -/
theorem C3_cap_error_no_mutation (t : Timer) (m : ℚ)
    (hcfg : ¬(t.minIntervalSet = true ∧ t.maxIntervalSet = true ∧ t.maxInterval < t.minInterval))
    (hset : t.maxDurationSet = true)
    (hover : t.maxDuration < t.total +
      t.clamp (t.interval.next.1 + ratTrunc (t.jitter * m) * t.interval.next.1)) :
    (t.start m).2 = .err .maxDurationElapsed ∧ (t.start m).1.total = t.total := by
  rw [start_cap_fail t m hcfg hset hover]
  exact ⟨rfl, rfl⟩

/-- C3, witness: a constant timer with interval 5 and cap 3. -/
theorem C3_witness :
    (((NewConstant 5).withMaxDuration 3).start 0).2 = .err .maxDurationElapsed ∧
    (((NewConstant 5).withMaxDuration 3).start 0).1.total
      = ((NewConstant 5).withMaxDuration 3).total := by
  refine C3_cap_error_no_mutation _ 0 (by decide) rfl ?_
  norm_num [Timer.clamp, NewConstant, newTimer, Timer.withMaxDuration, Seq.next, ratTrunc_zero]

/-- C4: when both the minimum and the maximum interval are set and the
minimum exceeds the maximum, `Start` returns the InvalidSettings error
immediately: the timer state (sequence and total included) is returned
unchanged and no channel is produced. -/
theorem C4_invalid_settings (t : Timer) (m : ℚ) (hmin : t.minIntervalSet = true)
    (hmax : t.maxIntervalSet = true) (hlt : t.maxInterval < t.minInterval) :
    t.start m = (t, .err .invalidSettings) := by
  unfold Timer.start
  rw [if_pos ⟨hmin, hmax, hlt⟩]

/-- C4, witness: a constant timer with minimum interval 10 and maximum
interval 3. -/
theorem C4_witness :
    (((NewConstant 5).withMinInterval 10).withMaxInterval 3).start 0
      = ((((NewConstant 5).withMinInterval 10).withMaxInterval 3), .err .invalidSettings) :=
  C4_invalid_settings _ 0 rfl rfl (by decide)

/-- C5: every successful `Start` call submits an interval no smaller than
the configured minimum (when set) and no larger than the configured maximum
(when set). -/
theorem C5_clamp_bounds (t : Timer) (m : ℚ) (d : ℤ) (h : (t.start m).2 = .ok d) :
    (t.minIntervalSet = true → t.minInterval ≤ d) ∧
    (t.maxIntervalSet = true → d ≤ t.maxInterval) := by
  simp only [Timer.start] at h
  split at h
  · simp at h
  · rename_i hcfg
    split at h
    · simp at h
    · simp only at h
      have hd : t.clamp (t.interval.next.1 + ratTrunc (t.jitter * m) * t.interval.next.1) = d :=
        StartOutcome.ok.inj h
      refine ⟨fun hmin => ?_, fun hmax => ?_⟩
      · rw [← hd]
        exact min_le_clamp t _ hmin hcfg
      · rw [← hd]
        exact clamp_le_max t _ hmax

/-- C5, witness: a constant timer with interval 10, minimum 3 and maximum 7
submits 7, which lies between the bounds. -/
theorem C5_witness :
    ((((NewConstant 10).withMinInterval 3).withMaxInterval 7).minIntervalSet = true →
      (((NewConstant 10).withMinInterval 3).withMaxInterval 7).minInterval ≤ 7) ∧
    ((((NewConstant 10).withMinInterval 3).withMaxInterval 7).maxIntervalSet = true →
      7 ≤ (((NewConstant 10).withMinInterval 3).withMaxInterval 7).maxInterval) := by
  refine C5_clamp_bounds _ 0 7 ?_
  norm_num [Timer.start, Timer.clamp, NewConstant, newTimer, Timer.withMinInterval,
    Timer.withMaxInterval, Seq.next, ratTrunc_zero]

/-- C6, counterexample: at current 16777217 ns (2^24 + 1, reachable as
`NewExponential(16777217, 1.0)`) with multiplier 1.0, the sign check passes
and the program sets current to 16777216 — `float32(16777217)` rounds down
to 16777216 — whereas the claim says current becomes
`current * multiplier` = 16777217. -/
theorem C6_counterexample :
    (Seq.next (.exponential 16777217 16777217 1)).2
      = Seq.exponential 16777217 16777216 1 ∧
    (16777216 : ℤ) ≠ ratTrunc (((16777217 : ℤ) : ℚ) * 1) := by
  have ea : roundF32 ((16777217 : ℤ) : ℚ) = 16777216 := by
    have h := roundF32_eval (q := ((16777217 : ℤ) : ℚ)) (e := 24)
      (by norm_num) (by norm_num) (by norm_num)
    rw [h]
    have h2 : (((16777217 : ℤ) : ℚ) / (2 : ℚ) ^ ((24 : ℤ) - 23))
        = ((8388608 : ℤ) : ℚ) + 1/2 := by norm_num
    rw [h2, rne_half_even 8388608 rfl (by decide)]
    norm_num
  have eb : roundF32 ((16777216 : ℚ) * 1) = 16777216 := by
    rw [mul_one]
    have h := roundF32_eval (q := (16777216 : ℚ)) (e := 24)
      (by norm_num) (by norm_num) (by norm_num)
    rw [h]
    have h2 : ((16777216 : ℚ) / (2 : ℚ) ^ ((24 : ℤ) - 23)) = ((8388608 : ℤ) : ℚ) := by
      norm_num
    rw [h2, rne_eq_of_lt_half 8388608 (by norm_num) (by norm_num)]
    norm_num
  constructor
  · simp only [Seq.next, ea, eb]
    rw [if_pos (by norm_num)]
    have h16 : (16777216 : ℚ) = ((16777216 : ℤ) : ℚ) := by norm_num
    rw [h16, ratTrunc_intCast]
  · have h17 : ((16777217 : ℤ) : ℚ) * 1 = ((16777217 : ℤ) : ℚ) := mul_one _
    rw [h17, ratTrunc_intCast]
    decide

/-- C6, amended: for every exponential sequence state, `next()` returns the
current duration; the program computes `c := float32(current) * multiplier`
(the conversion and the product each round to binary32, so `c` equals
`current * multiplier` only up to float32 rounding), and the new current is
`time.Duration(c)` when the sign-consistency check passes (positive
multiplier and positive `c`, or negative multiplier and negative `c`);
current is left unchanged when the check fails. -/
theorem C6_exponential_next (i cur : ℤ) (m : ℚ) :
    (Seq.next (.exponential i cur m)).1 = cur ∧
    ((0 < m ∧ 0 < roundF32 (roundF32 (cur : ℚ) * m)) ∨
        (m < 0 ∧ roundF32 (roundF32 (cur : ℚ) * m) < 0) →
      (Seq.next (.exponential i cur m)).2
        = .exponential i (ratTrunc (roundF32 (roundF32 (cur : ℚ) * m))) m) ∧
    (¬((0 < m ∧ 0 < roundF32 (roundF32 (cur : ℚ) * m)) ∨
        (m < 0 ∧ roundF32 (roundF32 (cur : ℚ) * m) < 0)) →
      (Seq.next (.exponential i cur m)).2 = .exponential i cur m) := by
  refine ⟨rfl, fun h => ?_, fun h => ?_⟩ <;> simp [Seq.next, h]

/-- C6, witness: an exponential state with current 4 and multiplier 3/2
(both exactly representable, product 6 exact) returns 4 and advances to
current 6. -/
theorem C6_witness :
    (Seq.next (.exponential 1 4 (3/2))).1 = 4 ∧
    (Seq.next (.exponential 1 4 (3/2))).2 = .exponential 1 6 (3/2) := by
  have e4 : roundF32 ((4 : ℤ) : ℚ) = 4 := by
    have h := roundF32_eval (q := ((4 : ℤ) : ℚ)) (e := 2)
      (by norm_num) (by norm_num) (by norm_num)
    rw [h]
    have h2 : (((4 : ℤ) : ℚ) / (2 : ℚ) ^ ((2 : ℤ) - 23)) = ((8388608 : ℤ) : ℚ) := by
      norm_num
    rw [h2, rne_eq_of_lt_half 8388608 (by norm_num) (by norm_num)]
    norm_num
  have e6 : roundF32 ((4 : ℚ) * (3/2)) = 6 := by
    have h46 : (4 : ℚ) * (3/2) = 6 := by norm_num
    rw [h46]
    have h := roundF32_eval (q := (6 : ℚ)) (e := 2)
      (by norm_num) (by norm_num) (by norm_num)
    rw [h]
    have h2 : ((6 : ℚ) / (2 : ℚ) ^ ((2 : ℤ) - 23)) = ((12582912 : ℤ) : ℚ) := by
      norm_num
    rw [h2, rne_eq_of_lt_half 12582912 (by norm_num) (by norm_num)]
    norm_num
  have hc : roundF32 (roundF32 ((4 : ℤ) : ℚ) * (3/2)) = 6 := by rw [e4]; exact e6
  have h := C6_exponential_next 1 4 (3/2)
  refine ⟨h.1, ?_⟩
  rw [h.2.1 (by rw [hc]; norm_num), hc]
  have h6 : (6 : ℚ) = ((6 : ℤ) : ℚ) := by norm_num
  rw [h6, ratTrunc_intCast]

/-- C7, counterexample: a linear sequence state with initial 1, current 2
and increment 1 (reached from a fresh state by one `next()`), after one
`next()` followed by `reset()`, holds current 1, not the current 2 it had
immediately before the call — `reset()` restores the construction state,
not the arbitrary pre-call state. -/
theorem C7_counterexample :
    Seq.reset (Seq.advance (Seq.linear 1 2 1) 1) ≠ Seq.linear 1 2 1 := by
  simp [Seq.advance, Seq.next, Seq.reset]

/-- C7, amended: for every sequence variant and every N, calling `next()` N
times followed by `reset()` returns the sequence to the state it had
immediately before those N calls, provided that state was a reset state
(fixed by `reset()`, i.e. current = initial); in general the sequence
returns to its construction state. -/
theorem C7_reset_after_next (s : Seq) (n : ℕ) (h : s.reset = s) :
    (Seq.advance s n).reset = s := by
  rw [reset_advance, h]

/-- C7, witness: a fresh linear sequence, advanced three times and reset,
is restored exactly. -/
theorem C7_witness : (Seq.advance (Seq.linear 1 1 1) 3).reset = Seq.linear 1 1 1 :=
  C7_reset_after_next _ 3 rfl

/-- C8: the magnitude function is documented to produce values in
[-1.0, 1.0), but at the random draw r = 0 it yields 1.0 - 2.0*0 = 1.0,
which is not below 1.0: the actual range is (-1.0, 1.0]. -/
theorem C8_magnitude_at_zero : magnitude 0 = 1 ∧ ¬(magnitude 0 < 1) := by
  norm_num [magnitude]

/-- C9: when `Start` fails with the MaxDurationElapsed error, the post-call
timer equals the pre-call timer with only the interval sequence advanced by
one `next()`: the sequence has moved on while `total` and all configuration
fields are unchanged, so the following call consumes the subsequent
interval. -/
theorem C9_sequence_advances_on_cap_failure (t t2 : Timer) (m : ℚ)
    (h : t.start m = (t2, .err .maxDurationElapsed)) :
    t2 = { t with interval := t.interval.next.2 } := by
  have h2 : (t.start m).2 = .err .maxDurationElapsed := by rw [h]
  obtain ⟨_, _, _, hpost⟩ := start_fail_rev t m h2
  rw [← hpost, h]

/-- C9, witness: a linear timer (initial 3, increment 1) with cap 2 fails
its first `Start`, and the post-call state has the advanced sequence with
everything else unchanged. -/
theorem C9_witness :
    (((NewLinear 3 1).withMaxDuration 2).start 0).1
      = { (NewLinear 3 1).withMaxDuration 2 with
          interval := ((NewLinear 3 1).withMaxDuration 2).interval.next.2 } := by
  refine C9_sequence_advances_on_cap_failure _ _ 0 ?_
  have h2 : (((NewLinear 3 1).withMaxDuration 2).start 0).2 = .err .maxDurationElapsed := by
    norm_num [Timer.start, Timer.clamp, NewLinear, newTimer, Timer.withMaxDuration, Seq.next,
      ratTrunc_zero]
  rw [Prod.ext_iff]
  exact ⟨rfl, h2⟩

/-- C10: whenever |fraction * magnitude| < 1 (in particular for every
fraction in [0,1) with magnitude in (-1,1)), the jitter step of `Start`
leaves the interval exactly equal to the raw value produced by the sequence,
because `time.Duration(t.jitter*magnitude())` truncates toward zero to 0
before being multiplied by the interval. -/
theorem C10_jitter_noop (t : Timer) (m : ℚ) (h : |t.jitter * m| < 1) :
    t.interval.next.1 + ratTrunc (t.jitter * m) * t.interval.next.1 = t.interval.next.1 := by
  rw [ratTrunc_eq_zero h, zero_mul, add_zero]

/-- C10, witness: base interval 1s, fraction 0.2, magnitude -0.5. -/
theorem C10_witness :
    ((NewConstant 1000000000).withJitter (1/5)).interval.next.1 +
        ratTrunc (((NewConstant 1000000000).withJitter (1/5)).jitter * (-1/2)) *
          ((NewConstant 1000000000).withJitter (1/5)).interval.next.1
      = ((NewConstant 1000000000).withJitter (1/5)).interval.next.1 :=
  C10_jitter_noop _ (-1/2)
    (by norm_num [NewConstant, newTimer, Timer.withJitter, abs_lt])

end TimerPkg
